import Mathlib

/-!
Shallow embedding of the ironic-metadata service (appkins-org/ironic-metadata).

The embedding follows the Go source:
  * `src/api/metadata/metadata.go` — HTTP handlers, client-IP extraction,
    node resolution (`getNodeByIP`, `nodeHasIP`), config-drive extraction
    (`extractFromConfigDrive`), document builders (`buildMetaData`,
    `buildNetworkData`, `getUserData`), helpers.
  * `src/pkg/client/metadata.go` — the Ironic client gateway
    (`GetIronicClient` readiness caching).
  * `src/pkg/metadata/types.go` — the metadata document types.

Go's untyped `any` values (from `map[string]any` fields) are modelled by the
inductive `GoVal`; Go maps are modelled as association lists (Go maps have
unique keys, which theorems assume via `Nodup` hypotheses where it matters;
Go's unspecified iteration order is fixed to list order).  The external
`encoding/json` decoder is not reimplemented: its two uses in
`extractFromConfigDrive` (unmarshalling a JSON string, and the
marshal/unmarshal round-trip of a structured value into `configDriveData`)
are abstracted as the two fields of the `Json` parameter, over which
theorems quantify.  Likewise `net.SplitHostPort` is a parameter of
`getClientIP`.
-/

/-- Go `any` values as they occur in `InstanceInfo` / `DriverInfo` /
`Properties` maps: strings, nested string-keyed maps, arrays, or anything
else (numbers, booleans, null, ...), which the code's type assertions
reject uniformly. -/
inductive GoVal where
  | str (s : String)
  | num (n : Int)
  | map (entries : List (String × GoVal))
  | arr (items : List GoVal)
  | other
deriving Repr

/-- Lookup in a Go `map[string]any`, modelled on an association list:
`m[k]` with the `, ok` form. -/
def goLookup (m : List (String × GoVal)) (k : String) : Option GoVal :=
  match m.find? (fun e => e.1 == k) with
  | some e => some e.2
  | none => none

/-- `metadata.Key` from `src/pkg/metadata/types.go`. -/
structure Key where
  type : String
  data : String
  name : String
deriving Repr, DecidableEq

/-- `metadata.Link` from `src/pkg/metadata/types.go`. -/
structure Link where
  id : String
  type : String
  ethernetMacAddress : String := ""
  mtu : Nat := 0
  bondMode : String := ""
  bondLinks : List String := []
  bondMIIMon : Option Nat := none
  bondHashPolicy : String := ""
deriving Repr, DecidableEq

/-- `metadata.Route` from `src/pkg/metadata/types.go`. -/
structure Route where
  network : String := ""
  netmask : String := ""
  gateway : String := ""
  metric : Int := 0
deriving Repr, DecidableEq

/-- `metadata.Network` from `src/pkg/metadata/types.go`; `ipAddress` is the
network entry's IP-address field (JSON tag `ip_address`), the one
`nodeHasIP` compares against the client IP. -/
structure Network where
  id : String
  link : String
  type : String
  ipAddress : String := ""
  netmask : String := ""
  gateway : String := ""
  routes : List Route := []
deriving Repr, DecidableEq

/-- `metadata.Service` from `src/pkg/metadata/types.go`. -/
structure Service where
  type : String
  address : String
deriving Repr, DecidableEq

/-- `metadata.NetworkData` from `src/pkg/metadata/types.go`. -/
structure NetworkData where
  links : List Link
  networks : List Network
  services : List Service
deriving Repr, DecidableEq

/-- `metadata.MetaData` from `src/pkg/metadata/types.go`.  Maps are
association lists; `creationTime` is an abstract timestamp. -/
structure MetaData where
  uuid : String
  name : String
  availabilityZone : String := ""
  hostname : String
  launchIndex : Nat
  publicKeys : List (String × String)
  meta : List (String × String)
  keys : List Key
  adminPass : String := ""
  projectID : String
  creationTime : Option Nat
  instanceType : String := ""
deriving Repr, DecidableEq

/-- `configDriveData` from `src/api/metadata/metadata.go`: the shape the
config-drive payload is unmarshalled into. -/
structure CData where
  metaData : Option MetaData := none
  userData : String := ""
  networkData : Option NetworkData := none
  vendorData : Option GoVal := none
  publicKeys : List (String × String) := []
deriving Repr

/-- `nodes.Node` (gophercloud), restricted to the fields the service reads:
UUID, Name, Owner, CreatedAt, Properties, InstanceInfo, DriverInfo. -/
structure Node where
  uuid : String
  name : String
  owner : String := ""
  createdAt : Nat := 0
  properties : List (String × GoVal) := []
  instanceInfo : List (String × GoVal) := []
  driverInfo : List (String × GoVal) := []
deriving Repr

/-- The external `encoding/json` decoder, abstracted.  `parseCfgString s`
is the outcome of `json.Unmarshal([]byte(s), &configDriveData{})` on a raw
string config-drive; `roundTripCfg v` is the outcome of marshalling a
structured (non-string) config-drive value and unmarshalling the bytes into
`configDriveData` (`none` when either step fails). -/
structure Json where
  parseCfgString : String → Option CData
  roundTripCfg : GoVal → Option CData

/-- Go `strings.Split` around a single-character separator, on character
lists: splitting the empty input gives `[[]]`, as in Go. -/
def splitListChar (sep : Char) : List Char → List (List Char)
  | [] => [[]]
  | c :: cs =>
    if c == sep then
      [] :: splitListChar sep cs
    else
      match splitListChar sep cs with
      | h :: t => (c :: h) :: t
      | [] => [[c]]

/-- Go `strings.Split s sep` for a one-character separator. -/
def goSplit (s : String) (sep : Char) : List String :=
  (splitListChar sep s.toList).map List.asString

/-- Drop leading whitespace characters. -/
def trimLeading : List Char → List Char
  | [] => []
  | c :: cs => if c.isWhitespace then trimLeading cs else c :: cs

/-- Go `strings.TrimSpace` (ASCII whitespace; the IP strings involved
contain no other whitespace). -/
def goTrimSpace (s : String) : String :=
  ((trimLeading s.toList).reverse |> trimLeading).reverse.asString

/-- `getClientIP` from `src/api/metadata/metadata.go`.  `shp` abstracts
`net.SplitHostPort` (returning the host on success); absent headers are the
empty string, as `Header.Get` yields.  `strings.Split(xff, ",")[0]` and
`strings.TrimSpace` are the executable models above. -/
def getClientIP (shp : String → Option String) (xff xri remoteAddr : String) : String :=
  if xff ≠ "" then
    goTrimSpace ((goSplit xff ',').headD "")
  else if xri ≠ "" then
    xri
  else
    match shp remoteAddr with
    | some host => host
    | none => remoteAddr

/-- `getNodeHostname` from `src/api/metadata/metadata.go`. -/
def getNodeHostname (node : Node) : String :=
  if node.name ≠ "" then node.name else node.uuid

/-- `getProjectID` from `src/api/metadata/metadata.go`. -/
def getProjectID (node : Node) : String :=
  node.owner

/-- Whether `pat` occurs at the head of `cs` (character-list version of a
leading-match test, used to build the substring check below). -/
def leadsWith : List Char → List Char → Bool
  | [], _ => true
  | _ :: _, [] => false
  | p :: ps, c :: cs => p == c && leadsWith ps cs

/-- Whether `pat` occurs anywhere in `cs`. -/
def subAt (pat : List Char) : List Char → Bool
  | [] => leadsWith pat []
  | c :: cs => leadsWith pat (c :: cs) || subAt pat cs

/-- Go `strings.Contains s pat`: `pat` is a substring of `s` (the empty
pattern always matches, as in Go). -/
def goContains (s pat : String) : Bool :=
  subAt pat.toList s.toList

/-- Go `strings.HasPrefix s pat`: `s` begins with `pat`. -/
def goStartsWith (s pat : String) : Bool :=
  leadsWith pat.toList s.toList

/-- `extractFromConfigDrive` from `src/api/metadata/metadata.go`.
Reads `instance_info["configdrive"]`.  Absent ⇒ error.  A string value
always errors: if it starts with `{` a JSON parse is attempted, but even a
successful parse yields the "configdrive is a JSON string" error, and a
failed parse (or a non-`{` string) falls through to the unimplemented-ISO
error.  A structured value is round-tripped through the JSON codec
(`j.roundTripCfg`, covering the source's marshal and unmarshal steps; the
two source failure messages are collapsed into the unmarshal one, which no
claim distinguishes). -/
def extractFromConfigDrive (j : Json) (node : Node) : Except String CData :=
  match goLookup node.instanceInfo "configdrive" with
  | none => .error "no configdrive found"
  | some (.str s) =>
    if goStartsWith s "\x7b" then
      match j.parseCfgString s with
      | some _ => .error "configdrive is a JSON string, not a file path or URL"
      | none => .error "ISO configdrive parsing not yet implemented"
    else
      .error "ISO configdrive parsing not yet implemented"
  | some v =>
    match j.roundTripCfg v with
    | some d => .ok d
    | none => .error "failed to unmarshal configdrive data"

/-- Assignment `m[k] = v` on a Go `map[string]string` modelled as an
association list: overwrite an existing key, otherwise append. -/
def mapInsert (m : List (String × String)) (k v : String) : List (String × String) :=
  if m.any (fun e => e.1 == k) then
    m.map (fun e => if e.1 == k then (k, v) else e)
  else
    m ++ [(k, v)]

/-- The `for ... range` loops of `buildMetaData` that copy the string-valued
entries of a `map[string]any` into a fresh `map[string]string`. -/
def collectStringEntries (entries : List (String × GoVal)) : List (String × String) :=
  entries.foldl
    (fun acc e =>
      match e.2 with
      | .str s => mapInsert acc e.1 s
      | _ => acc)
    []

/-- `buildMetaData` from `src/api/metadata/metadata.go`: identity fields
from the node, then either the config-drive overrides (instance type,
non-empty hostname, non-empty public-keys map) on successful extraction, or
the dynamic fallback (public keys from `instance_info.public_keys` string
entries, meta from string-valued node properties). -/
def buildMetaData (j : Json) (node : Node) : MetaData :=
  let base : MetaData :=
    { uuid := node.uuid
      name := node.name
      hostname := getNodeHostname node
      launchIndex := 0
      publicKeys := []
      meta := []
      keys := []
      projectID := getProjectID node
      creationTime := some node.createdAt }
  match extractFromConfigDrive j node with
  | .ok cd =>
    let withMd :=
      match cd.metaData with
      | some md =>
        let b := { base with instanceType := md.instanceType }
        if md.hostname ≠ "" then { b with hostname := md.hostname } else b
      | none => base
    if cd.publicKeys.length > 0 then
      { withMd with publicKeys := cd.publicKeys }
    else
      withMd
  | .error _ =>
    let pks :=
      match goLookup node.instanceInfo "public_keys" with
      | some (.map keys) => collectStringEntries keys
      | _ => []
    let meta := collectStringEntries node.properties
    { base with publicKeys := pks, meta := meta }

/-- `buildNetworkData` from `src/api/metadata/metadata.go`: a successfully
extracted config-drive payload with non-nil network data is returned
verbatim; otherwise the synthesized single-link (`eth0`, physical,
MTU 1500), single-network (`network0`, ipv4, on `eth0`) fallback.  (The
source's inspection of `instance_info["network_data"]` is a no-op.) -/
def buildNetworkData (j : Json) (node : Node) : NetworkData :=
  match extractFromConfigDrive j node with
  | .ok cd =>
    match cd.networkData with
    | some nd => nd
    | none =>
      { links := [{ id := "eth0", type := "physical", mtu := 1500 }]
        networks := [{ id := "network0", type := "ipv4", link := "eth0" }]
        services := [] }
  | .error _ =>
    { links := [{ id := "eth0", type := "physical", mtu := 1500 }]
      networks := [{ id := "network0", type := "ipv4", link := "eth0" }]
      services := [] }

/-- The `instance_info["user_data"]` fallback inside `getUserData`:
the value if it is a string, otherwise the empty string. -/
def instanceUserData (node : Node) : String :=
  match goLookup node.instanceInfo "user_data" with
  | some (.str u) => u
  | _ => ""

/-- `getUserData` from `src/api/metadata/metadata.go`: config-drive
user-data when extraction succeeds and it is non-empty, else the
`instance_info.user_data` string, else `""`. -/
def getUserData (j : Json) (node : Node) : String :=
  match extractFromConfigDrive j node with
  | .ok cd => if cd.userData ≠ "" then cd.userData else instanceUserData node
  | .error _ => instanceUserData node

/-- First block of `nodeHasIP` in `src/api/metadata/metadata.go`: the
extracted config-drive network data has an entry whose IP address equals
the target (the block returns `true` on a hit, otherwise falls through). -/
def cfgDriveIPMatch (j : Json) (node : Node) (targetIP : String) : Bool :=
  match extractFromConfigDrive j node with
  | .ok cd =>
    match cd.networkData with
    | some nd => nd.networks.any (fun net => net.ipAddress == targetIP)
    | none => false
  | .error _ => false

/-- The body of the `fixed_ips` loop in `nodeHasIP`: one list entry hits
when it is an object whose `ip_address` string equals the target. -/
def fixedIPEntryHit (targetIP : String) (v : GoVal) : Bool :=
  match v with
  | .map ipMap =>
    match goLookup ipMap "ip_address" with
    | some (.str s) => s == targetIP
    | _ => false
  | _ => false

/-- Second block of `nodeHasIP`: some `instance_info.fixed_ips` entry is an
object whose `ip_address` string equals the target. -/
def fixedIPsMatch (node : Node) (targetIP : String) : Bool :=
  match goLookup node.instanceInfo "fixed_ips" with
  | some (.arr items) => items.any (fixedIPEntryHit targetIP)
  | _ => false

/-- Third block of `nodeHasIP`: `driver_info.deploy_ramdisk_options` is an
object whose `ipa-api-url` string contains the target as a substring. -/
def ipaUrlMatch (node : Node) (targetIP : String) : Bool :=
  match goLookup node.driverInfo "deploy_ramdisk_options" with
  | some (.map options) =>
    match goLookup options "ipa-api-url" with
    | some (.str s) => goContains s targetIP
    | _ => false
  | _ => false

/-- Fourth block of `nodeHasIP`: the node name contains the target IP as a
substring (the source's explicit testing convenience). -/
def nameMatch (node : Node) (targetIP : String) : Bool :=
  goContains node.name targetIP

/-- `nodeHasIP` from `src/api/metadata/metadata.go`: the four matching
blocks in source order.  Each source block only returns `true` on a hit
and otherwise falls through to the next, so the sequence is their
disjunction. -/
def nodeHasIP (j : Json) (node : Node) (targetIP : String) : Bool :=
  cfgDriveIPMatch j node targetIP
    || fixedIPsMatch node targetIP
    || ipaUrlMatch node targetIP
    || nameMatch node targetIP

/-- `getNodeByIP` from `src/api/metadata/metadata.go`, given the listing
already fetched from Ironic: scan in listing order and return the first
node with `nodeHasIP`; an exhausted (or empty) listing yields the
"no node found for IP" error.  (The per-node detail refresh
`nodes.Get`/`ExtractInto` is modelled as already applied: each listed node
carries its detailed fields.) -/
def getNodeByIP (j : Json) (allNodes : List Node) (clientIP : String) : Except String Node :=
  match allNodes with
  | [] => .error ("no node found for IP " ++ clientIP)
  | node :: rest =>
    if nodeHasIP j node clientIP then .ok node
    else getNodeByIP j rest clientIP

/-- The outcome a handler writes: `httpError` models `http.Error(w, msg,
status)` (status code and the error text), the `ok*` constructors the 200
responses with their payload before serialization. -/
inductive HOut where
  | httpError (status : Nat) (msg : String)
  | okMeta (m : MetaData)
  | okNet (nd : NetworkData)
  | okText (body : String)
deriving Repr

/-- `handleMetaData` from `src/api/metadata/metadata.go`: 500 when the
client IP is missing from the request context, 404 "Node not found" when
resolution fails, otherwise the built metadata document.  `ctxIP` is the
context value stored by the client-IP middleware. -/
def handleMetaData (j : Json) (allNodes : List Node) (ctxIP : Option String) : HOut :=
  match ctxIP with
  | none => .httpError 500 "Internal Server Error"
  | some clientIP =>
    match getNodeByIP j allNodes clientIP with
    | .error _ => .httpError 404 "Node not found"
    | .ok node => .okMeta (buildMetaData j node)

/-- `handleNetworkData` from `src/api/metadata/metadata.go`. -/
def handleNetworkData (j : Json) (allNodes : List Node) (ctxIP : Option String) : HOut :=
  match ctxIP with
  | none => .httpError 500 "Internal Server Error"
  | some clientIP =>
    match getNodeByIP j allNodes clientIP with
    | .error _ => .httpError 404 "Node not found"
    | .ok node => .okNet (buildNetworkData j node)

/-- `handleUserData` from `src/api/metadata/metadata.go` (served on both
`/openstack/latest/user_data` and `/latest/user-data`): additionally 404s
with "User data not found" when the extracted user data is empty. -/
def handleUserData (j : Json) (allNodes : List Node) (ctxIP : Option String) : HOut :=
  match ctxIP with
  | none => .httpError 500 "Internal Server Error"
  | some clientIP =>
    match getNodeByIP j allNodes clientIP with
    | .error _ => .httpError 404 "Node not found"
    | .ok node =>
      let userData := getUserData j node
      if userData = "" then .httpError 404 "User data not found"
      else .okText userData

/-- `handleEC2MetaData` from `src/api/metadata/metadata.go`: the body is
`strings.Join` of the three `fmt.Sprintf("<label>\n%s", value)` entries. -/
def handleEC2MetaData (j : Json) (allNodes : List Node) (ctxIP : Option String) : HOut :=
  match ctxIP with
  | none => .httpError 500 "Internal Server Error"
  | some clientIP =>
    match getNodeByIP j allNodes clientIP with
    | .error _ => .httpError 404 "Node not found"
    | .ok node =>
      let ec2Data : List String :=
        [ "instance-id\n" ++ node.uuid
          , "hostname\n" ++ getNodeHostname node
          , "local-ipv4\n" ++ clientIP ]
      .okText (String.intercalate "\n" ec2Data)

/-- The `Clients` gateway state from `src/pkg/client/metadata.go`,
restricted to the Ironic fields the code reads and writes under its mutex:
the readiness flag, the permanent-failure flag, and the configured polling
timeout (seconds; `0` disables readiness checking). -/
structure Clients where
  ironicUp : Bool
  ironicFailed : Bool
  timeout : Nat
deriving Repr, DecidableEq

/-- Outcome of one readiness-polling attempt (the `select` between the
deadline context and the `waitForAPI`/`waitForConductor` completion
channel), abstracting the external API's behaviour. -/
inductive PollOutcome where
  | timedOut
  | ready
deriving Repr, DecidableEq

/-- `GetIronicClient` from `src/pkg/client/metadata.go` as a sequential
state transition (the mutex serializes calls).  Returns the new state, the
call result (`ok` standing for the returned service client), and whether
the call performed any polling. -/
def GetIronicClient (c : Clients) (outcome : PollOutcome) :
    Clients × Except String Unit × Bool :=
  if c.ironicUp || c.timeout == 0 then
    (c, .ok (), false)
  else if c.ironicFailed then
    (c, .error "could not contact Ironic API: timeout reached", false)
  else
    match outcome with
    | .timedOut =>
      ({ c with ironicFailed := true },
        .error "could not contact Ironic API: context deadline exceeded", true)
    | .ready =>
      ({ c with ironicUp := true }, .ok (), true)

/-- A sequence of `GetIronicClient` calls, one per poll outcome, threading
the gateway state; yields each call's result and polling flag. -/
def runCalls (c : Clients) : List PollOutcome → List (Except String Unit × Bool)
  | [] => []
  | o :: rest =>
    let r := GetIronicClient c o
    (r.2.1, r.2.2) :: runCalls r.1 rest

/-- Decoding a JSON object field into a Go `string` struct field, as
`encoding/json` does on the unmarshal half of the round trip: absent key ⇒
zero value `""`, string ⇒ itself, any other type ⇒ unmarshal error. -/
def decodeStringField (m : List (String × GoVal)) (k : String) : Option String :=
  match goLookup m k with
  | none => some ""
  | some (.str s) => some s
  | some _ => none

/-- Decoding a JSON object field into a Go `int` struct field. -/
def decodeIntField (m : List (String × GoVal)) (k : String) : Option Int :=
  match goLookup m k with
  | none => some 0
  | some (.num n) => some n
  | some _ => none

/-- One `metadata.Network` object on the unmarshal half of the round trip
(route lists unsupported by this concrete decoder: present ⇒ failure). -/
def decodeNetwork (v : GoVal) : Option Network :=
  match v with
  | .map m => do
    let id ← decodeStringField m "id"
    let link ← decodeStringField m "link"
    let type ← decodeStringField m "type"
    let ipAddress ← decodeStringField m "ip_address"
    let netmask ← decodeStringField m "netmask"
    let gateway ← decodeStringField m "gateway"
    match goLookup m "routes" with
    | none => some { id, link, type, ipAddress, netmask, gateway }
    | some _ => none
  | _ => none

/-- One `metadata.Link` object on the unmarshal half of the round trip
(bond fields unsupported by this concrete decoder: present ⇒ failure). -/
def decodeLink (v : GoVal) : Option Link :=
  match v with
  | .map m => do
    let id ← decodeStringField m "id"
    let type ← decodeStringField m "type"
    let ethernetMacAddress ← decodeStringField m "ethernet_mac_address"
    let mtu ← decodeIntField m "mtu"
    match goLookup m "bond_links", goLookup m "bond_miimon" with
    | none, none => some { id, type, ethernetMacAddress, mtu := mtu.toNat }
    | _, _ => none
  | _ => none

/-- One `metadata.Service` object on the unmarshal half of the round trip. -/
def decodeService (v : GoVal) : Option Service :=
  match v with
  | .map m => do
    let type ← decodeStringField m "type"
    let address ← decodeStringField m "address"
    some { type, address }
  | _ => none

/-- A `metadata.NetworkData` object on the unmarshal half of the round
trip: each list field is absent (zero value) or an array of objects. -/
def decodeNetworkDataVal (v : GoVal) : Option NetworkData :=
  match v with
  | .map m => do
    let links ←
      match goLookup m "links" with
      | none => some []
      | some (.arr items) => items.mapM decodeLink
      | some _ => none
    let networks ←
      match goLookup m "networks" with
      | none => some []
      | some (.arr items) => items.mapM decodeNetwork
      | some _ => none
    let services ←
      match goLookup m "services" with
      | none => some []
      | some (.arr items) => items.mapM decodeService
      | some _ => none
    some { links, networks, services }
  | _ => none

/-- A `map[string]string` field (`public_keys`) on the unmarshal half of
the round trip: every value must be a string. -/
def decodeStringMap (v : GoVal) : Option (List (String × String)) :=
  match v with
  | .map entries =>
    entries.mapM (fun e =>
      match e.2 with
      | .str s => some (e.1, s)
      | _ => none)
  | _ => none

/-- A concrete, executable instance of the round-trip half of the abstract
`Json` codec, agreeing with `encoding/json` on the object shapes exercised
by the concrete scenarios below (string/int fields, nested network data,
string-valued public-keys maps; shapes it does not support fail, which is
conservative).  `meta_data` and `keys` sub-objects are unsupported. -/
def decodeCfgGoVal (v : GoVal) : Option CData :=
  match v with
  | .map m => do
    let userData ← decodeStringField m "user_data"
    let networkData ←
      match goLookup m "network_data" with
      | none => some none
      | some nv => (decodeNetworkDataVal nv).map some
    let publicKeys ←
      match goLookup m "public_keys" with
      | none => some []
      | some pv => decodeStringMap pv
    let vendorData ←
      match goLookup m "vendor_data" with
      | none => some none
      | some (.map ve) => some (some (GoVal.map ve))
      | some _ => none
    match goLookup m "meta_data", goLookup m "keys" with
    | none, none =>
      some { userData, networkData, publicKeys, vendorData }
    | _, _ => none
  | _ => none

/-- The abstract codec instantiated with the concrete round-trip decoder;
the string-parse half never succeeds (no scenario below feeds it a JSON
string it would need to accept, and `extractFromConfigDrive` errors on
strings either way). -/
def jReal : Json :=
  { parseCfgString := fun _ => none
    roundTripCfg := decodeCfgGoVal }

/-- A codec instance whose string-parse half accepts any `{`-led string as
an empty payload, exercising the "successfully parsed JSON string" branch
of `extractFromConfigDrive`. -/
def jParses : Json :=
  { parseCfgString := fun s => if goStartsWith s "\x7b" then some {} else none
    roundTripCfg := decodeCfgGoVal }

/-- Declarative reading of the first matching strategy: the config-drive
payload extracts successfully and its network data has an entry whose
address equals the client IP. -/
def matchesConfigDriveNet (j : Json) (node : Node) (ip : String) : Prop :=
  ∃ cd, extractFromConfigDrive j node = .ok cd ∧
    ∃ nd, cd.networkData = some nd ∧
      ∃ net, net ∈ nd.networks ∧ net.ipAddress = ip

/-- Declarative reading of the second matching strategy: an
`instance_info.fixed_ips` entry with `ip_address` equal to the client IP. -/
def matchesFixedIPs (node : Node) (ip : String) : Prop :=
  ∃ items, goLookup node.instanceInfo "fixed_ips" = some (.arr items) ∧
    ∃ v, v ∈ items ∧ ∃ ipMap, v = GoVal.map ipMap ∧
      goLookup ipMap "ip_address" = some (.str ip)

/-- Declarative reading of the third matching strategy: the
`deploy_ramdisk_options.ipa-api-url` string contains the client IP. -/
def matchesIpaUrl (node : Node) (ip : String) : Prop :=
  ∃ options, goLookup node.driverInfo "deploy_ramdisk_options" = some (.map options) ∧
    ∃ s, goLookup options "ipa-api-url" = some (.str s) ∧ goContains s ip = true

/-- Declarative reading of the fourth matching strategy: the node name
contains the client IP as a substring. -/
def matchesName (node : Node) (ip : String) : Prop :=
  goContains node.name ip = true

lemma cfgDriveIPMatch_iff (j : Json) (node : Node) (ip : String) :
    cfgDriveIPMatch j node ip = true ↔ matchesConfigDriveNet j node ip := by
  unfold cfgDriveIPMatch matchesConfigDriveNet
  cases h : extractFromConfigDrive j node with
  | error e => simp [h]
  | ok cd =>
    cases hnd : cd.networkData with
    | none => simp [h, hnd]
    | some nd => simp [h, hnd, List.any_eq_true]

lemma fixedIPEntryHit_iff (v : GoVal) (ip : String) :
    fixedIPEntryHit ip v = true
    ↔ ∃ ipMap, v = GoVal.map ipMap ∧ goLookup ipMap "ip_address" = some (GoVal.str ip) := by
  cases v with
  | map ipMap =>
    cases hip : goLookup ipMap "ip_address" with
    | none => simp [fixedIPEntryHit, hip]
    | some w =>
      cases w with
      | str s => simp [fixedIPEntryHit, hip]
      | num n => simp [fixedIPEntryHit, hip]
      | map m => simp [fixedIPEntryHit, hip]
      | arr a => simp [fixedIPEntryHit, hip]
      | other => simp [fixedIPEntryHit, hip]
  | str s => simp [fixedIPEntryHit]
  | num n => simp [fixedIPEntryHit]
  | arr a => simp [fixedIPEntryHit]
  | other => simp [fixedIPEntryHit]

lemma fixedIPsMatch_iff (node : Node) (ip : String) :
    fixedIPsMatch node ip = true ↔ matchesFixedIPs node ip := by
  unfold fixedIPsMatch matchesFixedIPs
  cases h : goLookup node.instanceInfo "fixed_ips" with
  | none => simp [h]
  | some v =>
    cases v with
    | arr items => simp [h, List.any_eq_true, fixedIPEntryHit_iff]
    | str s => simp [h]
    | num n => simp [h]
    | map m => simp [h]
    | other => simp [h]

lemma ipaUrlMatch_iff (node : Node) (ip : String) :
    ipaUrlMatch node ip = true ↔ matchesIpaUrl node ip := by
  unfold ipaUrlMatch matchesIpaUrl
  cases h : goLookup node.driverInfo "deploy_ramdisk_options" with
  | none => simp [h]
  | some v =>
    cases v with
    | map options =>
      cases hs : goLookup options "ipa-api-url" with
      | none => simp [h, hs]
      | some w =>
        cases w with
        | str s => simp [h, hs]
        | num n => simp [h, hs]
        | map m => simp [h, hs]
        | arr a => simp [h, hs]
        | other => simp [h, hs]
    | str s => simp [h]
    | num n => simp [h]
    | arr a => simp [h]
    | other => simp [h]

lemma nodeHasIP_iff (j : Json) (node : Node) (ip : String) :
    nodeHasIP j node ip = true ↔
      matchesConfigDriveNet j node ip ∨ matchesFixedIPs node ip
        ∨ matchesIpaUrl node ip ∨ matchesName node ip := by
  unfold nodeHasIP
  simp only [Bool.or_eq_true]
  rw [cfgDriveIPMatch_iff, fixedIPsMatch_iff, ipaUrlMatch_iff]
  unfold matchesName
  tauto

lemma getNodeByIP_eq_find (j : Json) (ns : List Node) (ip : String) :
    getNodeByIP j ns ip =
      match ns.find? (fun n => nodeHasIP j n ip) with
      | some n => Except.ok n
      | none => Except.error ("no node found for IP " ++ ip) := by
  induction ns with
  | nil => rfl
  | cons n rest ih =>
    cases hb : nodeHasIP j n ip with
    | true => simp [getNodeByIP, hb, List.find?_cons_of_pos, hb]
    | false => simp [getNodeByIP, hb, List.find?_cons_of_neg, ih]

/-- C2.  `getNodeByIP` returns the first node in listing order satisfying
`nodeHasIP`; `nodeHasIP` holds exactly when one of the four matching
strategies (config-drive network address, `fixed_ips` entry, `ipa-api-url`
substring, node-name substring) does; an exhausted listing — the empty
listing included, with no distinct error — yields the
"no node found for IP" error and no node. -/
theorem getNodeByIP_first_match_or_error (j : Json) (ns : List Node) (ip : String) :
    (getNodeByIP j ns ip =
      match ns.find? (fun n => nodeHasIP j n ip) with
      | some n => Except.ok n
      | none => Except.error ("no node found for IP " ++ ip))
    ∧ (∀ n : Node, nodeHasIP j n ip = true ↔
        matchesConfigDriveNet j n ip ∨ matchesFixedIPs n ip
          ∨ matchesIpaUrl n ip ∨ matchesName n ip)
    ∧ getNodeByIP j [] ip = Except.error ("no node found for IP " ++ ip) :=
  ⟨getNodeByIP_eq_find j ns ip, fun n => nodeHasIP_iff j n ip, rfl⟩

/-- Scanning skips a leading block of non-matching nodes. -/
lemma getNodeByIP_append_of_none (j : Json) (ip : String) (pre l : List Node)
    (hpre : ∀ n ∈ pre, nodeHasIP j n ip = false) :
    getNodeByIP j (pre ++ l) ip = getNodeByIP j l ip := by
  induction pre with
  | nil => rfl
  | cons n rest ih =>
    have hn := hpre n (List.mem_cons_self n rest)
    simp only [List.cons_append, getNodeByIP, hn, Bool.false_eq_true, if_false]
    exact ih (fun m hm => hpre m (List.mem_cons_of_mem n hm))

/-- A matching node at the head of the remaining scan is returned. -/
lemma getNodeByIP_cons_of_hit (j : Json) (ip : String) (b : Node) (l : List Node)
    (hb : nodeHasIP j b ip = true) :
    getNodeByIP j (b :: l) ip = Except.ok b := by
  simp [getNodeByIP, hb]

/-- Node A of the ordering scenario: no structured network data at all, but
a name containing the client IP `192.168.1.5` as a substring. -/
def nodeA : Node :=
  { uuid := "uuid-a", name := "node-192.168.1.5" }

/-- The structured config-drive value of node B, as the Go `any` it is in
`instance_info["configdrive"]`: an object carrying network data with one
network entry whose address is `192.168.1.5`. -/
def cfgValB : GoVal :=
  .map [("network_data",
    .map [("networks",
      .arr [.map [("id", .str "net0"), ("link", .str "eth0"),
                  ("type", .str "ipv4"), ("ip_address", .str "192.168.1.5")]])])]

/-- Node B of the ordering scenario: a structured config-drive network
entry matching `192.168.1.5`, name unrelated to the IP. -/
def nodeB : Node :=
  { uuid := "uuid-b", name := "server-b", instanceInfo := [("configdrive", cfgValB)] }

/-- The network entry `cfgValB` round-trips to. -/
def netB : Network :=
  { id := "net0", link := "eth0", type := "ipv4", ipAddress := "192.168.1.5" }

/-- The network data `cfgValB` round-trips to. -/
def ndB : NetworkData :=
  { links := [], networks := [netB], services := [] }

/-- The config-drive payload `cfgValB` round-trips to. -/
def cdB : CData :=
  { networkData := some ndB }

/-- C1 counterexample.  In the listing `[A, B]` with client IP
`192.168.1.5`: node B matches via structured config-drive network data and
node A only via the name-substring fallback, yet `getNodeByIP` returns A —
the first node in listing order — not B.  So structured signals do not
take priority across the listing, only within one node's check, and the
claim's "regardless of the order in which A and B appear" fails. -/
theorem getNodeByIP_order_counterexample :
    matchesConfigDriveNet jReal nodeB "192.168.1.5"
    ∧ matchesName nodeA "192.168.1.5"
    ∧ cfgDriveIPMatch jReal nodeA "192.168.1.5" = false
    ∧ fixedIPsMatch nodeA "192.168.1.5" = false
    ∧ ipaUrlMatch nodeA "192.168.1.5" = false
    ∧ getNodeByIP jReal [nodeA, nodeB] "192.168.1.5" = Except.ok nodeA
    ∧ nodeA.uuid ≠ nodeB.uuid :=
  ⟨⟨cdB, rfl, ndB, rfl, netB, by simp [ndB], rfl⟩,
   by unfold matchesName; decide, rfl, rfl, rfl, rfl, by decide⟩

/-- C1 amended.  Scan order decides between two matching nodes: with the
same non-matching surroundings, when node B (structured config-drive
match) precedes node A (name-substring match) resolution returns B, and
when A precedes B it returns A.  The structured-before-substring priority
holds within a single node's check, not across the listing. -/
theorem getNodeByIP_scan_order (j : Json) (pre mid rest : List Node)
    (a b : Node) (ip : String)
    (hpre : ∀ n ∈ pre, nodeHasIP j n ip = false)
    (hb : matchesConfigDriveNet j b ip)
    (ha : matchesName a ip) :
    getNodeByIP j (pre ++ b :: (mid ++ a :: rest)) ip = Except.ok b
    ∧ getNodeByIP j (pre ++ a :: (mid ++ b :: rest)) ip = Except.ok a := by
  have hbm : nodeHasIP j b ip = true := (nodeHasIP_iff j b ip).mpr (Or.inl hb)
  have ham : nodeHasIP j a ip = true :=
    (nodeHasIP_iff j a ip).mpr (Or.inr (Or.inr (Or.inr ha)))
  constructor
  · rw [getNodeByIP_append_of_none j ip pre _ hpre]
    exact getNodeByIP_cons_of_hit j ip b _ hbm
  · rw [getNodeByIP_append_of_none j ip pre _ hpre]
    exact getNodeByIP_cons_of_hit j ip a _ ham

/-- Witness for the amended C1 theorem at the concrete two-node scenario. -/
theorem getNodeByIP_scan_order_witness :
    getNodeByIP jReal ([] ++ nodeB :: ([] ++ nodeA :: [])) "192.168.1.5" = Except.ok nodeB
    ∧ getNodeByIP jReal ([] ++ nodeA :: ([] ++ nodeB :: [])) "192.168.1.5" = Except.ok nodeA :=
  getNodeByIP_scan_order jReal [] [] [] nodeA nodeB "192.168.1.5"
    (by simp)
    ⟨cdB, rfl, ndB, rfl, netB, by simp [ndB], rfl⟩
    (by unfold matchesName; decide)


lemma extract_eq_of_str (j : Json) (node : Node) (s : String)
    (h : goLookup node.instanceInfo "configdrive" = some (GoVal.str s)) :
    extractFromConfigDrive j node =
      if goStartsWith s "\x7b" then
        match j.parseCfgString s with
        | some _ => .error "configdrive is a JSON string, not a file path or URL"
        | none => .error "ISO configdrive parsing not yet implemented"
      else .error "ISO configdrive parsing not yet implemented" := by
  unfold extractFromConfigDrive
  rw [h]

lemma extract_eq_of_nonstr (j : Json) (node : Node) (v : GoVal)
    (h : goLookup node.instanceInfo "configdrive" = some v)
    (hv : ∀ s, v ≠ GoVal.str s) :
    extractFromConfigDrive j node =
      match j.roundTripCfg v with
      | some d => .ok d
      | none => .error "failed to unmarshal configdrive data" := by
  unfold extractFromConfigDrive
  rw [h]
  cases v with
  | str s => exact absurd rfl (hv s)
  | num n => rfl
  | map m => rfl
  | arr a => rfl
  | other => rfl

/-- C3.  A string-valued `instance_info.configdrive` — whether or not it
begins with `{` and whether or not the JSON parse succeeds — always makes
`extractFromConfigDrive` return an error, never a payload; and extraction
succeeds only on a structured (non-string) value the JSON round trip
accepts, so the config-drive overrides in `buildMetaData`,
`buildNetworkData`, `getUserData` and `nodeHasIP` (all of which act only
on a successful extraction) can take effect only for structured values. -/
theorem extractFromConfigDrive_string_errors (j : Json) (node : Node) :
    (∀ s, goLookup node.instanceInfo "configdrive" = some (GoVal.str s) →
      ∃ e, extractFromConfigDrive j node = .error e)
    ∧ (∀ cd, extractFromConfigDrive j node = .ok cd →
        ∃ v, goLookup node.instanceInfo "configdrive" = some v
          ∧ (∀ s, v ≠ GoVal.str s) ∧ j.roundTripCfg v = some cd) := by
  constructor
  · intro s h
    rw [extract_eq_of_str j node s h]
    by_cases hp : goStartsWith s "\x7b" = true
    · rw [if_pos hp]
      cases j.parseCfgString s with
      | some d => exact ⟨_, rfl⟩
      | none => exact ⟨_, rfl⟩
    · rw [if_neg hp]
      exact ⟨_, rfl⟩
  · intro cd hok
    cases h : goLookup node.instanceInfo "configdrive" with
    | none =>
      unfold extractFromConfigDrive at hok
      rw [h] at hok
      exact absurd hok (by simp)
    | some v =>
      by_cases hv : ∃ s, v = GoVal.str s
      · obtain ⟨s, rfl⟩ := hv
        rw [extract_eq_of_str j node s h] at hok
        by_cases hp : goStartsWith s "\x7b" = true
        · rw [if_pos hp] at hok
          cases hps : j.parseCfgString s with
          | some d => rw [hps] at hok; exact absurd hok (by simp)
          | none => rw [hps] at hok; exact absurd hok (by simp)
        · rw [if_neg hp] at hok
          exact absurd hok (by simp)
      · push_neg at hv
        rw [extract_eq_of_nonstr j node v h hv] at hok
        cases hrt : j.roundTripCfg v with
        | some d =>
          rw [hrt] at hok
          simp only [Except.ok.injEq] at hok
          exact ⟨v, rfl, hv, by rw [hrt, hok]⟩
        | none => rw [hrt] at hok; exact absurd hok (by simp)

/-- A node whose `configdrive` is a JSON-object string; with the
`jParses` codec the parse succeeds, yet extraction still errors. -/
def nodeStrCfg : Node :=
  { uuid := "uuid-s", name := "node-s",
    instanceInfo := [("configdrive", .str "\x7b\x7d")] }

/-- Witness for C3 at a node whose config-drive string parses as JSON. -/
theorem extractFromConfigDrive_string_errors_witness :
    goStartsWith "\x7b\x7d" "\x7b" = true
    ∧ Json.parseCfgString jParses "\x7b\x7d" = some {}
    ∧ ∃ e, extractFromConfigDrive jParses nodeStrCfg = .error e :=
  ⟨by decide, rfl,
    (extractFromConfigDrive_string_errors jParses nodeStrCfg).1 "\x7b\x7d" rfl⟩

lemma getUserData_eq_of_ok (j : Json) (node : Node) (cd : CData)
    (h : extractFromConfigDrive j node = .ok cd) :
    getUserData j node = if cd.userData ≠ "" then cd.userData else instanceUserData node := by
  unfold getUserData
  rw [h]

lemma getUserData_eq_of_error (j : Json) (node : Node) (e : String)
    (h : extractFromConfigDrive j node = .error e) :
    getUserData j node = instanceUserData node := by
  unfold getUserData
  rw [h]

/-- C4.  Non-empty config-drive user-data always wins, even when
`instance_info.user_data` is also present; when the config-drive payload
is absent/unparseable or its user-data is empty, the result is the
`instance_info.user_data` value if that value is a string, and `""`
otherwise. -/
theorem getUserData_cfg_priority (j : Json) (node : Node) :
    (∀ cd, extractFromConfigDrive j node = .ok cd → cd.userData ≠ "" →
      getUserData j node = cd.userData)
    ∧ (∀ u, ((∃ e, extractFromConfigDrive j node = .error e)
          ∨ (∃ cd, extractFromConfigDrive j node = .ok cd ∧ cd.userData = "")) →
        goLookup node.instanceInfo "user_data" = some (GoVal.str u) →
        getUserData j node = u)
    ∧ (((∃ e, extractFromConfigDrive j node = .error e)
          ∨ (∃ cd, extractFromConfigDrive j node = .ok cd ∧ cd.userData = "")) →
        (∀ u, goLookup node.instanceInfo "user_data" ≠ some (GoVal.str u)) →
        getUserData j node = "") := by
  have hfall : ∀ hcase : (∃ e, extractFromConfigDrive j node = .error e)
      ∨ (∃ cd, extractFromConfigDrive j node = .ok cd ∧ cd.userData = ""),
      getUserData j node = instanceUserData node := by
    rintro (⟨e, he⟩ | ⟨cd, hok, hempty⟩)
    · exact getUserData_eq_of_error j node e he
    · rw [getUserData_eq_of_ok j node cd hok]
      simp [hempty]
  refine ⟨?_, ?_, ?_⟩
  · intro cd h hne
    rw [getUserData_eq_of_ok j node cd h, if_pos hne]
  · intro u hcase hu
    rw [hfall hcase]
    unfold instanceUserData
    rw [hu]
  · intro hcase hnu
    rw [hfall hcase]
    unfold instanceUserData
    cases hl : goLookup node.instanceInfo "user_data" with
    | none => rfl
    | some v =>
      cases v with
      | str u => exact absurd hl (hnu u)
      | num n => rfl
      | map m => rfl
      | arr a => rfl
      | other => rfl

/-- A node with both a structured config-drive user-data (non-empty) and
an `instance_info.user_data` string. -/
def nodeU : Node :=
  { uuid := "uuid-u", name := "node-u",
    instanceInfo := [("configdrive", .map [("user_data", .str "cfg-data")]),
                     ("user_data", .str "dyn-data")] }

/-- A node with only an `instance_info.user_data` string (no config-drive). -/
def nodeUDyn : Node :=
  { uuid := "uuid-v", name := "node-v",
    instanceInfo := [("user_data", .str "dyn-data")] }

/-- Witness for C4: config-drive user-data wins when both are present;
the `instance_info` string is served when no config-drive exists. -/
theorem getUserData_cfg_priority_witness :
    getUserData jReal nodeU = "cfg-data" ∧ getUserData jReal nodeUDyn = "dyn-data" :=
  ⟨(getUserData_cfg_priority jReal nodeU).1 { userData := "cfg-data" } rfl (by decide),
   (getUserData_cfg_priority jReal nodeUDyn).2.1 "dyn-data" (Or.inl ⟨_, rfl⟩) rfl⟩

lemma buildNetworkData_eq_of_error (j : Json) (node : Node) (e : String)
    (h : extractFromConfigDrive j node = .error e) :
    buildNetworkData j node =
      { links := [{ id := "eth0", type := "physical", mtu := 1500 }]
        networks := [{ id := "network0", type := "ipv4", link := "eth0" }]
        services := [] } := by
  unfold buildNetworkData
  rw [h]

lemma buildNetworkData_eq_of_ok (j : Json) (node : Node) (cd : CData)
    (h : extractFromConfigDrive j node = .ok cd) :
    buildNetworkData j node =
      match cd.networkData with
      | some nd => nd
      | none =>
        { links := [{ id := "eth0", type := "physical", mtu := 1500 }]
          networks := [{ id := "network0", type := "ipv4", link := "eth0" }]
          services := [] } := by
  unfold buildNetworkData
  rw [h]

/-- C6.  When no config-drive network data is extractable (extraction
fails, or succeeds with nil network data), the document has exactly one
link — `eth0`, physical, MTU 1500 — and exactly one network — `network0`,
ipv4, on link `eth0` — and no services; when the config-drive supplies
network data it is returned verbatim, with no merging. -/
theorem buildNetworkData_fallback_or_verbatim (j : Json) (node : Node) :
    (((∃ e, extractFromConfigDrive j node = .error e)
        ∨ (∃ cd, extractFromConfigDrive j node = .ok cd ∧ cd.networkData = none)) →
      (buildNetworkData j node).links = [{ id := "eth0", type := "physical", mtu := 1500 }]
      ∧ (buildNetworkData j node).networks = [{ id := "network0", type := "ipv4", link := "eth0" }]
      ∧ (buildNetworkData j node).services = [])
    ∧ (∀ cd nd, extractFromConfigDrive j node = .ok cd → cd.networkData = some nd →
        buildNetworkData j node = nd) := by
  constructor
  · rintro (⟨e, he⟩ | ⟨cd, hok, hnone⟩)
    · rw [buildNetworkData_eq_of_error j node e he]
      exact ⟨rfl, rfl, rfl⟩
    · rw [buildNetworkData_eq_of_ok j node cd hok, hnone]
      exact ⟨rfl, rfl, rfl⟩
  · intro cd nd hok hsome
    rw [buildNetworkData_eq_of_ok j node cd hok, hsome]

/-- Witness for C6: the fallback for a node with no config-drive, and the
verbatim pass-through of node B's config-drive network data. -/
theorem buildNetworkData_fallback_or_verbatim_witness :
    ((buildNetworkData jReal nodeA).links
        = [{ id := "eth0", type := "physical", mtu := 1500 }]
      ∧ (buildNetworkData jReal nodeA).networks
        = [{ id := "network0", type := "ipv4", link := "eth0" }]
      ∧ (buildNetworkData jReal nodeA).services = [])
    ∧ buildNetworkData jReal nodeB = ndB :=
  ⟨(buildNetworkData_fallback_or_verbatim jReal nodeA).1 (Or.inl ⟨_, rfl⟩),
   (buildNetworkData_fallback_or_verbatim jReal nodeB).2 cdB ndB rfl rfl⟩

lemma mapInsert_of_not_mem (acc : List (String × String)) (k v : String)
    (h : k ∉ acc.map Prod.fst) :
    mapInsert acc k v = acc ++ [(k, v)] := by
  have hany : acc.any (fun e => e.1 == k) = false := by
    rw [List.any_eq_false]
    intro e he
    simp only [beq_iff_eq]
    intro hek
    exact h (List.mem_map.mpr ⟨e, he, hek⟩)
  simp [mapInsert, hany]

lemma collect_go (l : List (String × GoVal)) (acc : List (String × String))
    (hnd : (l.map Prod.fst).Nodup)
    (hdisj : ∀ k ∈ acc.map Prod.fst, k ∉ l.map Prod.fst) :
    l.foldl
        (fun a e =>
          match e.2 with
          | GoVal.str s => mapInsert a e.1 s
          | _ => a)
        acc
      = acc ++ l.filterMap
          (fun e =>
            match e.2 with
            | GoVal.str s => some (e.1, s)
            | _ => none) := by
  induction l generalizing acc with
  | nil => simp
  | cons e t ih =>
    obtain ⟨k, v⟩ := e
    simp only [List.map_cons, List.nodup_cons] at hnd
    obtain ⟨hk_not_t, hnd_t⟩ := hnd
    have hdisj_t : ∀ k2 ∈ acc.map Prod.fst, k2 ∉ t.map Prod.fst := by
      intro k2 hk2 hmem
      exact hdisj k2 hk2 (by simp [hmem])
    cases v with
    | str s =>
      have hknotacc : k ∉ acc.map Prod.fst := by
        intro hmem
        exact hdisj k hmem (by simp)
      rw [List.foldl_cons]
      show t.foldl _ (mapInsert acc k s) = _
      rw [mapInsert_of_not_mem acc k s hknotacc]
      rw [ih (acc ++ [(k, s)]) hnd_t ?hd]
      · simp
      case hd =>
        intro k2 hk2
        simp only [List.map_append, List.mem_append, List.map_cons, List.map_nil,
          List.mem_singleton] at hk2
        rcases hk2 with h1 | h2
        · exact hdisj_t k2 h1
        · simp only [h2]
          exact hk_not_t
    | num n =>
      rw [List.foldl_cons]
      show t.foldl _ acc = _
      rw [ih acc hnd_t hdisj_t]
      simp
    | map m =>
      rw [List.foldl_cons]
      show t.foldl _ acc = _
      rw [ih acc hnd_t hdisj_t]
      simp
    | arr a =>
      rw [List.foldl_cons]
      show t.foldl _ acc = _
      rw [ih acc hnd_t hdisj_t]
      simp
    | other =>
      rw [List.foldl_cons]
      show t.foldl _ acc = _
      rw [ih acc hnd_t hdisj_t]
      simp

lemma collectStringEntries_eq (l : List (String × GoVal))
    (hnd : (l.map Prod.fst).Nodup) :
    collectStringEntries l
      = l.filterMap
          (fun e =>
            match e.2 with
            | GoVal.str s => some (e.1, s)
            | _ => none) := by
  unfold collectStringEntries
  simpa using collect_go l [] hnd (by simp)

lemma buildMetaData_eq_of_error (j : Json) (node : Node) (e : String)
    (h : extractFromConfigDrive j node = .error e) :
    buildMetaData j node =
      { uuid := node.uuid
        name := node.name
        hostname := getNodeHostname node
        launchIndex := 0
        publicKeys :=
          (match goLookup node.instanceInfo "public_keys" with
           | some (.map keys) => collectStringEntries keys
           | _ => [])
        meta := collectStringEntries node.properties
        keys := []
        projectID := getProjectID node
        creationTime := some node.createdAt } := by
  unfold buildMetaData
  rw [h]

/-- C7.  With no (or unparseable) config-drive payload, the meta map is
exactly the string-valued entries of the node's `Properties` (keys 1:1,
non-string values omitted), and the public-keys map exactly the
string-valued entries of `instance_info.public_keys`. -/
theorem buildMetaData_dynamic_fallback (j : Json) (node : Node)
    (hprops : (node.properties.map Prod.fst).Nodup)
    (hpk : ∀ keys, goLookup node.instanceInfo "public_keys" = some (GoVal.map keys) →
      (keys.map Prod.fst).Nodup)
    (hfail : ∃ e, extractFromConfigDrive j node = .error e) :
    (buildMetaData j node).meta
      = node.properties.filterMap
          (fun e =>
            match e.2 with
            | GoVal.str s => some (e.1, s)
            | _ => none)
    ∧ (buildMetaData j node).publicKeys
      = (match goLookup node.instanceInfo "public_keys" with
         | some (GoVal.map keys) =>
           keys.filterMap
             (fun e =>
               match e.2 with
               | GoVal.str s => some (e.1, s)
               | _ => none)
         | _ => []) := by
  obtain ⟨e, he⟩ := hfail
  rw [buildMetaData_eq_of_error j node e he]
  refine ⟨collectStringEntries_eq node.properties hprops, ?_⟩
  cases hlk : goLookup node.instanceInfo "public_keys" with
  | none => rfl
  | some v =>
    cases v with
    | map keys => exact collectStringEntries_eq keys (hpk keys hlk)
    | str s => rfl
    | num n => rfl
    | arr a => rfl
    | other => rfl

/-- The concrete node of the C7 scenario: hardware properties
`memory_mb`/`cpus` and one `public_keys` string entry, no config-drive. -/
def node7 : Node :=
  { uuid := "uuid-7", name := "node-7",
    properties := [("memory_mb", .str "8192"), ("cpus", .str "4")],
    instanceInfo := [("public_keys", .map [("default", .str "ssh-rsa AAAA")])] }

/-- Witness for C7 at the concrete node: the meta map is exactly the two
property entries and the public-keys map exactly the one key entry. -/
theorem buildMetaData_dynamic_fallback_witness :
    (buildMetaData jReal node7).meta = [("memory_mb", "8192"), ("cpus", "4")]
    ∧ (buildMetaData jReal node7).publicKeys = [("default", "ssh-rsa AAAA")] := by
  have h := buildMetaData_dynamic_fallback jReal node7 (by decide)
    (by
      intro keys hk
      rw [show goLookup node7.instanceInfo "public_keys"
          = some (GoVal.map [("default", GoVal.str "ssh-rsa AAAA")]) from rfl] at hk
      simp only [Option.some.injEq, GoVal.map.injEq] at hk
      subst hk
      decide)
    ⟨"no configdrive found", rfl⟩
  exact ⟨h.1.trans rfl, h.2.trans rfl⟩

lemma handleMetaData_some (j : Json) (ns : List Node) (ip : String) :
    handleMetaData j ns (some ip) =
      match getNodeByIP j ns ip with
      | .error _ => .httpError 404 "Node not found"
      | .ok node => .okMeta (buildMetaData j node) := rfl

lemma handleNetworkData_some (j : Json) (ns : List Node) (ip : String) :
    handleNetworkData j ns (some ip) =
      match getNodeByIP j ns ip with
      | .error _ => .httpError 404 "Node not found"
      | .ok node => .okNet (buildNetworkData j node) := rfl

lemma handleUserData_some (j : Json) (ns : List Node) (ip : String) :
    handleUserData j ns (some ip) =
      match getNodeByIP j ns ip with
      | .error _ => .httpError 404 "Node not found"
      | .ok node =>
        if getUserData j node = "" then .httpError 404 "User data not found"
        else .okText (getUserData j node) := rfl

lemma handleEC2MetaData_some (j : Json) (ns : List Node) (ip : String) :
    handleEC2MetaData j ns (some ip) =
      match getNodeByIP j ns ip with
      | .error _ => .httpError 404 "Node not found"
      | .ok node =>
        .okText (String.intercalate "\n"
          [ "instance-id\n" ++ node.uuid
            , "hostname\n" ++ getNodeHostname node
            , "local-ipv4\n" ++ ip ]) := rfl

/-- C8.  On the node-dependent routes (OpenStack meta_data.json,
network_data.json, user_data, and the EC2 meta-data/user-data routes): a
missing client IP in the request context yields status 500; a failed node
resolution yields 404 with "Node not found"; and on the user-data route an
empty extracted user-data string yields 404 with "User data not found". -/
theorem handlers_error_statuses (j : Json) (ns : List Node) :
    (handleMetaData j ns none = .httpError 500 "Internal Server Error"
      ∧ handleNetworkData j ns none = .httpError 500 "Internal Server Error"
      ∧ handleUserData j ns none = .httpError 500 "Internal Server Error"
      ∧ handleEC2MetaData j ns none = .httpError 500 "Internal Server Error")
    ∧ (∀ ip e, getNodeByIP j ns ip = .error e →
        handleMetaData j ns (some ip) = .httpError 404 "Node not found"
        ∧ handleNetworkData j ns (some ip) = .httpError 404 "Node not found"
        ∧ handleUserData j ns (some ip) = .httpError 404 "Node not found"
        ∧ handleEC2MetaData j ns (some ip) = .httpError 404 "Node not found")
    ∧ (∀ ip node, getNodeByIP j ns ip = .ok node → getUserData j node = "" →
        handleUserData j ns (some ip) = .httpError 404 "User data not found") := by
  refine ⟨⟨rfl, rfl, rfl, rfl⟩, ?_, ?_⟩
  · intro ip e h
    exact ⟨by rw [handleMetaData_some, h],
           by rw [handleNetworkData_some, h],
           by rw [handleUserData_some, h],
           by rw [handleEC2MetaData_some, h]⟩
  · intro ip node hok hempty
    rw [handleUserData_some, hok]
    simp [hempty]

/-- Witness for C8: 404 "Node not found" on an empty listing, and 404
"User data not found" for a resolved node with no user data. -/
theorem handlers_error_statuses_witness :
    (handleMetaData jReal [] (some "10.0.0.1") = .httpError 404 "Node not found"
      ∧ handleNetworkData jReal [] (some "10.0.0.1") = .httpError 404 "Node not found"
      ∧ handleUserData jReal [] (some "10.0.0.1") = .httpError 404 "Node not found"
      ∧ handleEC2MetaData jReal [] (some "10.0.0.1") = .httpError 404 "Node not found")
    ∧ handleUserData jReal [nodeA] (some "192.168.1.5")
        = .httpError 404 "User data not found" :=
  ⟨(handlers_error_statuses jReal []).2.1 "10.0.0.1" _ rfl,
   (handlers_error_statuses jReal [nodeA]).2.2 "192.168.1.5" nodeA rfl rfl⟩


/-- C9.  Client-IP extraction priority: a non-empty `X-Forwarded-For`
yields its first comma-separated entry trimmed of whitespace; otherwise a
non-empty `X-Real-IP` is returned as-is; otherwise the host portion of the
peer address (port stripped) when `net.SplitHostPort` succeeds.  For
`X-Forwarded-For: 192.168.1.1, 10.0.0.1` the result is `192.168.1.1`
whatever the other header, peer address or host-port splitter. -/
theorem getClientIP_priority (shp : String → Option String) (xff xri ra : String) :
    (xff ≠ "" → getClientIP shp xff xri ra = goTrimSpace ((goSplit xff ',').headD ""))
    ∧ (xff = "" → xri ≠ "" → getClientIP shp xff xri ra = xri)
    ∧ (∀ h, xff = "" → xri = "" → shp ra = some h → getClientIP shp xff xri ra = h)
    ∧ getClientIP shp "192.168.1.1, 10.0.0.1" xri ra = "192.168.1.1" := by
  refine ⟨?_, ?_, ?_, ?_⟩
  · intro hxff
    unfold getClientIP
    rw [if_pos hxff]
  · intro hxff hxri
    unfold getClientIP
    rw [if_neg (by simp [hxff]), if_pos hxri]
  · intro h hxff hxri hshp
    unfold getClientIP
    rw [if_neg (by simp [hxff]), if_neg (by simp [hxri]), hshp]
  · rfl

/-- A concrete host-port splitter for the witness: the text before the
first colon, when a colon exists. -/
def shpColon (s : String) : Option String :=
  match goSplit s ':' with
  | [_] => none
  | h :: _ => some h
  | [] => none

/-- Witness for C9 at the three header configurations of the repository's
own `TestGetClientIP` cases. -/
theorem getClientIP_priority_witness :
    getClientIP shpColon "192.168.1.1, 10.0.0.1" "" "127.0.0.1:12345" = "192.168.1.1"
    ∧ getClientIP shpColon "" "192.168.1.2" "127.0.0.1:12345" = "192.168.1.2"
    ∧ getClientIP shpColon "" "" "192.168.1.3:12345" = "192.168.1.3" :=
  ⟨(getClientIP_priority shpColon "192.168.1.1, 10.0.0.1" "" "127.0.0.1:12345").2.2.2,
   (getClientIP_priority shpColon "" "192.168.1.2" "127.0.0.1:12345").2.1 rfl (by decide),
   (getClientIP_priority shpColon "" "" "192.168.1.3:12345").2.2.1
      "192.168.1.3" rfl rfl (by decide)⟩

/-- C10 counterexample.  At a concrete resolved node the EC2 meta-data
body has six newline-separated lines (label, value, label, value, label,
value), not three lines equal to the instance-id, hostname and client IP:
each `fmt.Sprintf("<label>\n%s", v)` entry contributes two physical
lines. -/
theorem handleEC2MetaData_counterexample :
    handleEC2MetaData jReal [nodeA] (some "192.168.1.5")
      = .okText "instance-id\nuuid-a\nhostname\nnode-192.168.1.5\nlocal-ipv4\n192.168.1.5"
    ∧ (goSplit "instance-id\nuuid-a\nhostname\nnode-192.168.1.5\nlocal-ipv4\n192.168.1.5"
        '\n').length = 6
    ∧ goSplit "instance-id\nuuid-a\nhostname\nnode-192.168.1.5\nlocal-ipv4\n192.168.1.5"
        '\n' ≠ [nodeA.uuid, getNodeHostname nodeA, "192.168.1.5"] :=
  ⟨rfl, by decide, by decide⟩

/-- C10 amended.  For every successful request to the EC2 meta-data route,
the body is the newline-join of three label/value sections — six physical
lines: `instance-id` then the node UUID, `hostname` then the node name (or
UUID when the name is empty), `local-ipv4` then the extracted client IP,
in that order. -/
theorem handleEC2MetaData_body (j : Json) (ns : List Node) (ip : String) (node : Node)
    (hres : getNodeByIP j ns ip = .ok node) :
    handleEC2MetaData j ns (some ip)
      = .okText (String.intercalate "\n"
          ["instance-id", node.uuid, "hostname", getNodeHostname node, "local-ipv4", ip])
    ∧ (node.name ≠ "" → getNodeHostname node = node.name)
    ∧ (node.name = "" → getNodeHostname node = node.uuid) := by
  refine ⟨?_, ?_, ?_⟩
  · rw [handleEC2MetaData_some, hres]
    have h1 : ∀ x : String, "\n" ++ ("hostname\n" ++ x) = "\nhostname\n" ++ x := by
      intro x
      rw [← String.append_assoc]
      exact congrArg (fun y => y ++ x) rfl
    have h2 : ∀ x : String, "\n" ++ ("local-ipv4\n" ++ x) = "\nlocal-ipv4\n" ++ x := by
      intro x
      rw [← String.append_assoc]
      exact congrArg (fun y => y ++ x) rfl
    simp [String.intercalate, String.intercalate.go, String.append_assoc, h1, h2]
  · intro h
    unfold getNodeHostname
    rw [if_pos h]
  · intro h
    unfold getNodeHostname
    rw [if_neg (by simp [h])]

/-- Witness for the amended C10 theorem at the concrete node. -/
theorem handleEC2MetaData_body_witness :
    handleEC2MetaData jReal [nodeA] (some "192.168.1.5")
      = .okText (String.intercalate "\n"
          ["instance-id", nodeA.uuid, "hostname", getNodeHostname nodeA,
           "local-ipv4", "192.168.1.5"])
    ∧ (nodeA.name ≠ "" → getNodeHostname nodeA = nodeA.name)
    ∧ (nodeA.name = "" → getNodeHostname nodeA = nodeA.uuid) :=
  handleEC2MetaData_body jReal [nodeA] "192.168.1.5" nodeA rfl

lemma GetIronicClient_failed_fast (c : Clients) (o : PollOutcome)
    (hup : c.ironicUp = false) (ht : c.timeout ≠ 0) (hf : c.ironicFailed = true) :
    GetIronicClient c o =
      (c, .error "could not contact Ironic API: timeout reached", false) := by
  unfold GetIronicClient
  rw [if_neg (by simp [hup, ht]), if_pos hf]

lemma runCalls_failed (c : Clients) (os : List PollOutcome)
    (hup : c.ironicUp = false) (ht : c.timeout ≠ 0) (hf : c.ironicFailed = true) :
    ∀ r ∈ runCalls c os,
      r = (.error "could not contact Ironic API: timeout reached", false) := by
  induction os with
  | nil => intro r hr; cases hr
  | cons o rest ih =>
    intro r hr
    rw [runCalls, GetIronicClient_failed_fast c o hup ht hf] at hr
    rcases List.mem_cons.mp hr with h | h
    · exact h
    · exact ih r h

/-- C5.  From a fresh gateway state with a nonzero polling timeout, a call
whose polling times out fails with the deadline error and leaves the
timeout configuration unchanged; every later call, whatever its poll
outcome, fails immediately with the "timeout reached" error and performs
no polling, for the rest of the run. -/
theorem GetIronicClient_timeout_permanent (c : Clients) (os : List PollOutcome)
    (ht : c.timeout ≠ 0) (hup : c.ironicUp = false) (hf : c.ironicFailed = false) :
    (GetIronicClient c .timedOut).2.1
        = .error "could not contact Ironic API: context deadline exceeded"
    ∧ (GetIronicClient c .timedOut).1.timeout = c.timeout
    ∧ ∀ r ∈ runCalls (GetIronicClient c .timedOut).1 os,
        r = (.error "could not contact Ironic API: timeout reached", false) := by
  have hstep : GetIronicClient c .timedOut =
      ({ c with ironicFailed := true },
        .error "could not contact Ironic API: context deadline exceeded", true) := by
    unfold GetIronicClient
    rw [if_neg (by simp [hup, ht]), if_neg (by simp [hf])]
  rw [hstep]
  exact ⟨rfl, rfl, runCalls_failed _ os (by simp [hup]) (by simpa using ht) rfl⟩

/-- Witness for C5 at a concrete 30-second-timeout gateway and a run of
three later calls whose polling would even succeed. -/
theorem GetIronicClient_timeout_permanent_witness :
    (GetIronicClient ⟨false, false, 30⟩ .timedOut).2.1
        = .error "could not contact Ironic API: context deadline exceeded"
    ∧ (GetIronicClient ⟨false, false, 30⟩ .timedOut).1.timeout = 30
    ∧ ∀ r ∈ runCalls (GetIronicClient ⟨false, false, 30⟩ .timedOut).1
          [.ready, .ready, .timedOut],
        r = (.error "could not contact Ironic API: timeout reached", false) :=
  GetIronicClient_timeout_permanent ⟨false, false, 30⟩ [.ready, .ready, .timedOut]
    (by decide) rfl rfl
